import Mathlib

/-!
Shallow embedding of the podcastr frontend (src/frontend/src/App.tsx):
the JavaScript string and number primitives the component relies on, the
client state, and the event handlers, modelled as a step function from
states and user actions to new states, issued HTTP requests and
browser-storage writes.
-/

namespace Podcastr

/-- Models the ECMAScript WhiteSpace and LineTerminator character set used by
String.prototype.trim: TAB, LF, VT, FF, CR, SP, NBSP, the Zs space separators
U+1680, U+2000 to U+200A, U+202F, U+205F and U+3000, the line and paragraph
separators U+2028 and U+2029, and ZWNBSP U+FEFF. -/
def isJsWhitespace (c : Char) : Bool :=
  c == ' ' || c == '\t' || c == '\n' || c == '\r' || c == '\x0b' || c == '\x0c' ||
  c == '\xa0' || c == '\u1680' ||
  c == '\u2000' || c == '\u2001' || c == '\u2002' || c == '\u2003' ||
  c == '\u2004' || c == '\u2005' || c == '\u2006' || c == '\u2007' ||
  c == '\u2008' || c == '\u2009' || c == '\u200a' ||
  c == '\u2028' || c == '\u2029' || c == '\u202f' || c == '\u205f' ||
  c == '\u3000' || c == '\ufeff'

/-- Models JavaScript String.prototype.trim on the character list of a string:
leading and trailing whitespace is removed. -/
def jsTrim (l : List Char) : List Char :=
  ((l.dropWhile isJsWhitespace).reverse.dropWhile isJsWhitespace).reverse

/-- Decimal digit value of a character, none if it is not a decimal digit. -/
def decDigitVal (c : Char) : Option Nat :=
  if '0' ≤ c ∧ c ≤ '9' then some (c.toNat - 48) else none

/-- Hexadecimal digit value of a character, none if it is not a hex digit. -/
def hexDigitVal (c : Char) : Option Nat :=
  if '0' ≤ c ∧ c ≤ '9' then some (c.toNat - 48)
  else if 'a' ≤ c ∧ c ≤ 'f' then some (c.toNat - 87)
  else if 'A' ≤ c ∧ c ≤ 'F' then some (c.toNat - 55)
  else none

/-- The values of the longest digit prefix of a character list. -/
def readDigits (f : Char → Option Nat) (l : List Char) : List Nat :=
  (l.takeWhile fun c => (f c).isSome).filterMap f

/-- Value of a digit list in the given base. -/
def digitsVal (base : Nat) (ds : List Nat) : Nat :=
  ds.foldl (fun a d => a * base + d) 0

/-- Models JavaScript parseInt(string) with the radix argument omitted: leading
whitespace is skipped, an optional sign is read, a 0x or 0X prefix selects
hexadecimal and otherwise decimal digits are read; none models NaN. -/
def jsParseInt (s : String) : Option Int :=
  let l := s.data.dropWhile isJsWhitespace
  let signAndRest : Int × List Char :=
    match l with
    | '-' :: rest => (-1, rest)
    | '+' :: rest => (1, rest)
    | _ => (1, l)
  match signAndRest.2 with
  | '0' :: 'x' :: rest =>
    let ds := readDigits hexDigitVal rest
    if ds.isEmpty then none else some (signAndRest.1 * digitsVal 16 ds)
  | '0' :: 'X' :: rest =>
    let ds := readDigits hexDigitVal rest
    if ds.isEmpty then none else some (signAndRest.1 * digitsVal 16 ds)
  | rest =>
    let ds := readDigits decDigitVal rest
    if ds.isEmpty then none else some (signAndRest.1 * digitsVal 10 ds)

/-- Models the JavaScript expression x || d where x is the result of parseInt:
NaN (modelled as none) and 0 are falsy, so they yield the default d. -/
def jsOrInt (x : Option Int) (d : Int) : Int :=
  match x with
  | none => d
  | some v => if v = 0 then d else v

/-- Models JavaScript text.split(' '): the text is cut at every single space
and empty components are kept. -/
def jsSplitSpace : List Char → List (List Char)
  | [] => [[]]
  | c :: rest =>
    let ws := jsSplitSpace rest
    if c = ' ' then [] :: ws else (c :: ws.headD []) :: ws.tail

/-- Models JavaScript arr.join(' '). -/
def jsJoinSpace : List (List Char) → List Char
  | [] => []
  | [w] => w
  | w :: ws :: wss => w ++ ' ' :: jsJoinSpace (ws :: wss)

/-- truncateText from App.tsx: split the text on spaces, keep the first
lines * 10 components, join them with single spaces and append "..." exactly
when components were dropped. -/
def truncateText (text : String) (lines : Nat) : String :=
  let words := jsSplitSpace text.data
  let truncated := jsJoinSpace (words.take (lines * 10))
  String.mk (truncated ++ (if words.length > lines * 10 then ['.', '.', '.'] else []))

/-- The characters encodeURIComponent leaves unescaped. -/
def isUriUnreserved (c : Char) : Bool :=
  c.isAlpha || c.isDigit || c == '-' || c == '_' || c == '.' || c == '!' ||
  c == '~' || c == '*' || c == '(' || c == ')' || c == '\''

/-- UTF-8 byte sequence of a Unicode code point. -/
def utf8Bytes (c : Char) : List Nat :=
  let n := c.toNat
  if n < 0x80 then [n]
  else if n < 0x800 then [0xc0 + n / 0x40, 0x80 + n % 0x40]
  else if n < 0x10000 then [0xe0 + n / 0x1000, 0x80 + n / 0x40 % 0x40, 0x80 + n % 0x40]
  else [0xf0 + n / 0x40000, 0x80 + n / 0x1000 % 0x40, 0x80 + n / 0x40 % 0x40, 0x80 + n % 0x40]

/-- Uppercase hexadecimal digit character for a value below 16. -/
def hexUpper (n : Nat) : Char :=
  if n < 10 then Char.ofNat (48 + n) else Char.ofNat (55 + n)

/-- Percent-encoding of one byte, as used by encodeURIComponent. -/
def percentEncodeByte (b : Nat) : List Char :=
  ['%', hexUpper (b / 16), hexUpper (b % 16)]

/-- Models JavaScript encodeURIComponent: unreserved characters are kept, every
other character is replaced by the percent-encoding of its UTF-8 bytes. -/
def encodeURIComponent (s : String) : String :=
  String.mk (s.data.flatMap fun c =>
    if isUriUnreserved c then [c] else (utf8Bytes c).flatMap percentEncodeByte)

/-- The Article interface of App.tsx. -/
structure Article where
  title : String
  description : String
  link : String
  published : String
  score : Float
  reasoning : String

/-- The SearchResponse interface of App.tsx. -/
structure SearchResponse where
  articles : List Article
  llm_reasoning : String

/-- The client state of the App component: one field per useState hook. -/
structure AppState where
  query : String
  maxSearchResults : Int
  displayResults : Int
  articles : List Article
  loading : Bool
  saving : Bool
  error : String
  expandedCard : Option Nat
  showProfileEditor : Bool
  profile : String
  showLog : Bool
  llmReasoning : String

/-- An HTTP request issued through axios. -/
structure Request where
  method : String
  url : String
  params : List (String × String)
  body : Option (List Article)

/-- Result of running one event handler: the new client state, the HTTP
requests issued, and the writes performed on browser-local storage. -/
structure StepResult where
  state : AppState
  requests : List Request
  writes : List (String × String)

/-- Outcome of the awaited GET request of handleSearch: the parsed response
body on success, or a thrown error. -/
inductive SearchOutcome where
  | success (resp : SearchResponse)
  | failure

/-- Outcome of the awaited POST request of handleSave: an (ignored) response
body on success, or a thrown error. -/
inductive SaveOutcome where
  | success (resp : String)
  | failure

/-- The error message set by the catch block of handleSearch. -/
def searchFailureMessage : String := "Failed to fetch articles. Please try again."

/-- The error message set by the catch block of handleSave. -/
def saveFailureMessage : String := "Failed to save articles. Please try again."

/-- The GET request built by handleSearch from the current state. -/
def searchRequest (s : AppState) : Request :=
  { method := "GET"
    url := "http://localhost:8000/search/" ++ encodeURIComponent s.query
    params := [("max_results", toString s.maxSearchResults),
               ("display_results", toString s.displayResults),
               ("profile", s.profile)]
    body := none }

/-- handleSearch from App.tsx: a blank-trimming guard returns early, otherwise
the GET request is issued; on success articles and llmReasoning are replaced
by the response fields, on failure the error message is set; the finally
block clears the loading flag, and setError('') ran before the request. -/
def handleSearch (s : AppState) (o : SearchOutcome) : StepResult :=
  if (jsTrim s.query.data).isEmpty then ⟨s, [], []⟩
  else
    match o with
    | .success resp =>
      ⟨{ s with loading := false, error := "", articles := resp.articles,
                llmReasoning := resp.llm_reasoning }, [searchRequest s], []⟩
    | .failure =>
      ⟨{ s with loading := false, error := searchFailureMessage }, [searchRequest s], []⟩

/-- The POST request built by handleSave from the current state. -/
def saveRequest (s : AppState) : Request :=
  { method := "POST", url := "http://localhost:8000/save", params := [],
    body := some s.articles }

/-- handleSave from App.tsx: the current article list is posted; the success
response is ignored (only an alert is shown), a failure sets the error
message; the finally block clears the saving flag. -/
def handleSave (s : AppState) (o : SaveOutcome) : StepResult :=
  match o with
  | .success _ => ⟨{ s with saving := false }, [saveRequest s], []⟩
  | .failure => ⟨{ s with saving := false, error := saveFailureMessage }, [saveRequest s], []⟩

/-- Models JavaScript arr.filter((x, i) => p i x): filtering with access to
the element index. -/
def jsFilterIdx (p : Nat → α → Bool) (l : List α) : List α :=
  (l.enum.filter fun pr => p pr.1 pr.2).map Prod.snd

/-- The user-triggered events of the App component. -/
inductive Action where
  | editQuery (v : String)
  | editMaxResults (v : String)
  | editDisplayResults (v : String)
  | search (o : SearchOutcome)
  | save (o : SaveOutcome)
  | dismiss (i : Nat)
  | clickCard (i : Nat)
  | toggleProfileEditor
  | editProfile (v : String)
  | saveProfile
  | toggleLog

/-- One step of the App component: the event handler attached to each action,
transcribed from App.tsx. -/
def step (s : AppState) (a : Action) : StepResult :=
  match a with
  | .editQuery v => ⟨{ s with query := v }, [], []⟩
  | .editMaxResults v =>
    ⟨{ s with maxSearchResults := max 1 (jsOrInt (jsParseInt v) 1) }, [], []⟩
  | .editDisplayResults v =>
    ⟨{ s with displayResults := max 1 (jsOrInt (jsParseInt v) 1) }, [], []⟩
  | .search o => handleSearch s o
  | .save o => handleSave s o
  | .dismiss i => ⟨{ s with articles := jsFilterIdx (fun j _ => j != i) s.articles }, [], []⟩
  | .clickCard i =>
    ⟨{ s with expandedCard := if s.expandedCard = some i then none else some i }, [], []⟩
  | .toggleProfileEditor => ⟨{ s with showProfileEditor := !s.showProfileEditor }, [], []⟩
  | .editProfile v => ⟨{ s with profile := v }, [], []⟩
  | .saveProfile => ⟨{ s with showProfileEditor := false }, [], [("userProfile", s.profile)]⟩
  | .toggleLog => ⟨{ s with showLog := !s.showLog }, [], []⟩

/-- The state after one step. -/
def stepState (s : AppState) (a : Action) : AppState := (step s a).state

/-- The initial state of the App component, given the stored profile value:
every useState initialiser of App.tsx, with profile set to
localStorage.getItem('userProfile') || ''. -/
def initState (stored : Option String) : AppState :=
  { query := "", maxSearchResults := 50, displayResults := 10, articles := [],
    loading := false, saving := false, error := "", expandedCard := none,
    showProfileEditor := false, profile := stored.getD "", showLog := false,
    llmReasoning := "" }

/-- The initial state as read from browser-local storage: the only key the
component reads at startup is userProfile. -/
def initStateFromStorage (storage : String → Option String) : AppState :=
  initState (storage "userProfile")

/-- The states the client can reach from startup through any sequence of user
actions and request outcomes. -/
inductive Reachable (stored : Option String) : AppState → Prop where
  | base : Reachable stored (initState stored)
  | next {s : AppState} (a : Action) : Reachable stored s → Reachable stored (stepState s a)

/-! ### Helper lemmas -/

/-- jsTrim yields the empty list exactly when every character is whitespace. -/
theorem jsTrim_eq_nil_iff (l : List Char) :
    jsTrim l = [] ↔ ∀ c ∈ l, isJsWhitespace c = true := by
  unfold jsTrim
  rw [List.reverse_eq_nil_iff, List.dropWhile_eq_nil_iff]
  simp only [List.mem_reverse]
  constructor
  · intro h c hc
    rw [← List.takeWhile_append_dropWhile (p := isJsWhitespace) (l := l)] at hc
    rcases List.mem_append.mp hc with h1 | h2
    · exact List.mem_takeWhile_imp h1
    · exact h c h2
  · intro h x hx
    exact h x ((List.dropWhile_sublist _).subset hx)

/-- Splitting on spaces never yields an empty list of components. -/
theorem jsSplitSpace_ne_nil (l : List Char) : jsSplitSpace l ≠ [] := by
  cases l with
  | nil => simp [jsSplitSpace]
  | cons c rest =>
    simp only [jsSplitSpace]
    split <;> simp

/-- Joining with spaces undoes splitting on spaces. -/
theorem jsJoinSpace_jsSplitSpace (l : List Char) :
    jsJoinSpace (jsSplitSpace l) = l := by
  induction l with
  | nil => rfl
  | cons c rest ih =>
    rcases h : jsSplitSpace rest with _ | ⟨w, ws⟩
    · exact absurd h (jsSplitSpace_ne_nil rest)
    · rw [h] at ih
      by_cases hc : c = ' '
      · subst hc
        simp only [jsSplitSpace, h, eq_self_iff_true, if_true]
        rw [show jsJoinSpace ([] :: w :: ws) = [] ++ ' ' :: jsJoinSpace (w :: ws) from rfl]
        simpa using ih
      · simp only [jsSplitSpace, h, if_neg hc, List.headD_cons, List.tail_cons]
        cases ws with
        | nil =>
          have hw : w = rest := ih
          rw [show jsJoinSpace [c :: w] = c :: w from rfl, hw]
        | cons u us =>
          have e2 : jsJoinSpace (w :: u :: us) = w ++ ' ' :: jsJoinSpace (u :: us) := rfl
          rw [e2] at ih
          rw [show jsJoinSpace ((c :: w) :: u :: us) =
                (c :: w) ++ ' ' :: jsJoinSpace (u :: us) from rfl, ← ih]
          rfl

/-- Filtering an index different from k out of an enumeration starting at m
above k keeps every element. -/
theorem enumFrom_filter_ne_lt {α : Type} (t : List α) (k : Nat) :
    ∀ m, k < m → ((List.enumFrom m t).filter fun pr => pr.1 != k).map Prod.snd = t := by
  induction t with
  | nil => intro m _; rfl
  | cons a t ih =>
    intro m hk
    have hm : (m != k) = true := by
      simp only [bne_iff_ne, ne_eq]
      omega
    have e : List.enumFrom m (a :: t) = (m, a) :: List.enumFrom (m + 1) t := rfl
    simp only [e, List.filter_cons]
    rw [if_pos hm, List.map_cons, ih (m + 1) (by omega)]

/-- Filtering out the index k + j of an enumeration starting at k removes
exactly the j-th element. -/
theorem enumFrom_filter_ne_eraseIdx {α : Type} (l : List α) (k j : Nat) :
    ((List.enumFrom k l).filter fun pr => pr.1 != k + j).map Prod.snd = l.eraseIdx j := by
  induction l generalizing k j with
  | nil => rfl
  | cons a t ih =>
    have e : List.enumFrom k (a :: t) = (k, a) :: List.enumFrom (k + 1) t := rfl
    cases j with
    | zero =>
      have hk0 : ¬((k != k + 0) = true) := by simp
      simp only [e, List.filter_cons]
      rw [if_neg hk0]
      simp only [Nat.add_zero]
      rw [enumFrom_filter_ne_lt t k (k + 1) (Nat.lt_succ_self k)]
      rfl
    | succ j' =>
      have hk : (k != k + (j' + 1)) = true := by
        simp only [bne_iff_ne, ne_eq]
        omega
      simp only [e, List.filter_cons]
      rw [if_pos hk, List.map_cons]
      have hpred : (fun pr : Nat × α => pr.1 != k + (j' + 1)) =
          (fun pr : Nat × α => pr.1 != (k + 1) + j') := by
        funext pr
        rw [show k + (j' + 1) = (k + 1) + j' from by omega]
      rw [hpred, ih (k + 1) j']
      rfl

/-- The indexed filter used by the dismiss handler removes exactly the i-th
element of the list. -/
theorem jsFilterIdx_ne_eq_eraseIdx {α : Type} (l : List α) (i : Nat) :
    jsFilterIdx (fun j _ => j != i) l = l.eraseIdx i := by
  have h := enumFrom_filter_ne_eraseIdx l 0 i
  simp only [Nat.zero_add] at h
  unfold jsFilterIdx
  simp only [List.enum]
  exact h

/-- Every step keeps both numeric fields at least 1. -/
theorem stepState_bounds (s : AppState) (a : Action)
    (hm : 1 ≤ s.maxSearchResults) (hd : 1 ≤ s.displayResults) :
    1 ≤ (stepState s a).maxSearchResults ∧ 1 ≤ (stepState s a).displayResults := by
  cases a with
  | search o =>
    cases o <;> simp only [stepState, step, handleSearch] <;> split <;>
      exact ⟨hm, hd⟩
  | save o => cases o <;> exact ⟨hm, hd⟩
  | editMaxResults v => exact ⟨le_max_left _ _, hd⟩
  | editDisplayResults v => exact ⟨hm, le_max_left _ _⟩
  | editQuery v => exact ⟨hm, hd⟩
  | dismiss i => exact ⟨hm, hd⟩
  | clickCard i => exact ⟨hm, hd⟩
  | toggleProfileEditor => exact ⟨hm, hd⟩
  | editProfile v => exact ⟨hm, hd⟩
  | saveProfile => exact ⟨hm, hd⟩
  | toggleLog => exact ⟨hm, hd⟩

/-- Both numeric fields are at least 1 in every reachable state. -/
theorem reachable_bounds {stored : Option String} {s : AppState}
    (h : Reachable stored s) :
    1 ≤ s.maxSearchResults ∧ 1 ≤ s.displayResults := by
  induction h with
  | base => exact ⟨by norm_num [initState], by norm_num [initState]⟩
  | next a _ ih => exact stepState_bounds _ a ih.1 ih.2

/-! ### Claims -/

/-- C1: if the search query is empty or consists only of whitespace, invoking
the search handler issues no HTTP request, performs no storage write, and
leaves the whole client state exactly unchanged. -/
theorem search_blank_query_noop (s : AppState) (o : SearchOutcome)
    (h : ∀ c ∈ s.query.data, isJsWhitespace c = true) :
    step s (.search o) = ⟨s, [], []⟩ := by
  have ht : jsTrim s.query.data = [] := (jsTrim_eq_nil_iff _).mpr h
  cases o <;> simp [step, handleSearch, ht]

/-- C1 witness: a state whose query is two spaces steps to itself with no
request and no write. -/
theorem search_blank_query_noop_witness :
    step (stepState (initState none) (.editQuery "  ")) (.search SearchOutcome.failure)
      = ⟨stepState (initState none) (.editQuery "  "), [], []⟩ :=
  search_blank_query_noop _ SearchOutcome.failure (by decide)

/-- C2 counterexample: typing 500 into the Max Search Results field puts 500
into the state, 500 is outside 1..300, and the next search sends
max_results=500 on its one request. -/
theorem maxResults_not_bounded_by_300 :
    (stepState (initState none) (.editMaxResults "500")).maxSearchResults = 500 ∧
    ¬((stepState (initState none) (.editMaxResults "500")).maxSearchResults ≤ 300) ∧
    (∀ r ∈ (step (stepState (stepState (initState none) (.editQuery "q"))
        (.editMaxResults "500")) (.search SearchOutcome.failure)).requests,
      ("max_results", "500") ∈ r.params) ∧
    (step (stepState (stepState (initState none) (.editQuery "q"))
        (.editMaxResults "500")) (.search SearchOutcome.failure)).requests.length = 1 :=
  ⟨by decide, by decide, by decide, by decide⟩

/-- C2 amended: in every reachable client state the max_results value sent on
every search request is an integer at least 1; the 300 upper bound of the
input hint is not enforced against typed edits. -/
theorem maxResults_ge_one {stored : Option String} {s : AppState}
    (h : Reachable stored s) :
    1 ≤ s.maxSearchResults ∧
    ∀ o, ∀ r ∈ (step s (.search o)).requests,
      ("max_results", toString s.maxSearchResults) ∈ r.params := by
  refine ⟨(reachable_bounds h).1, ?_⟩
  intro o r hr
  cases o <;>
    (simp only [step, handleSearch] at hr
     split at hr
     · simp at hr
     · simp at hr
       subst hr
       simp [searchRequest])

/-- C2 amended witness: the theorem applied to the initial state. -/
theorem maxResults_ge_one_witness :
    1 ≤ (initState none).maxSearchResults ∧
    ∀ o, ∀ r ∈ (step (initState none) (.search o)).requests,
      ("max_results", toString (initState none).maxSearchResults) ∈ r.params :=
  maxResults_ge_one Reachable.base

/-- C3 counterexample: with maxSearchResults still 50, typing 100 into the
Display Results field puts 100 into the state, violating
display_results ≤ max_results, and the next search sends display_results=100
together with max_results=50. -/
theorem displayResults_can_exceed_maxResults :
    (stepState (initState none) (.editDisplayResults "100")).displayResults = 100 ∧
    (stepState (initState none) (.editDisplayResults "100")).maxSearchResults = 50 ∧
    ¬((stepState (initState none) (.editDisplayResults "100")).displayResults
        ≤ (stepState (initState none) (.editDisplayResults "100")).maxSearchResults) ∧
    (∀ r ∈ (step (stepState (stepState (initState none) (.editQuery "q"))
        (.editDisplayResults "100")) (.search SearchOutcome.failure)).requests,
      ("display_results", "100") ∈ r.params ∧ ("max_results", "50") ∈ r.params) ∧
    (step (stepState (stepState (initState none) (.editQuery "q"))
        (.editDisplayResults "100")) (.search SearchOutcome.failure)).requests.length = 1 :=
  ⟨by decide, by decide, by decide, by decide, by decide⟩

/-- C3 amended: in every reachable client state the display_results value sent
on every search request is an integer at least 1; no relation to max_results
is enforced. -/
theorem displayResults_ge_one {stored : Option String} {s : AppState}
    (h : Reachable stored s) :
    1 ≤ s.displayResults ∧
    ∀ o, ∀ r ∈ (step s (.search o)).requests,
      ("display_results", toString s.displayResults) ∈ r.params := by
  refine ⟨(reachable_bounds h).2, ?_⟩
  intro o r hr
  cases o <;>
    (simp only [step, handleSearch] at hr
     split at hr
     · simp at hr
     · simp at hr
       subst hr
       simp [searchRequest])

/-- C3 amended witness: the theorem applied to the initial state. -/
theorem displayResults_ge_one_witness :
    1 ≤ (initState none).displayResults ∧
    ∀ o, ∀ r ∈ (step (initState none) (.search o)).requests,
      ("display_results", toString (initState none).displayResults) ∈ r.params :=
  displayResults_ge_one Reachable.base

/-- C4 counterexample: a failed search and a failed save set different error
strings, so no single error string covers both operations. -/
theorem search_save_error_messages_differ :
    (stepState (stepState (initState none) (.editQuery "q"))
        (.search SearchOutcome.failure)).error
      ≠ (stepState (stepState (initState none) (.editQuery "q"))
        (.save SaveOutcome.failure)).error ∧
    (stepState (stepState (initState none) (.editQuery "q"))
        (.search SearchOutcome.failure)).error = searchFailureMessage ∧
    (stepState (stepState (initState none) (.editQuery "q"))
        (.save SaveOutcome.failure)).error = saveFailureMessage :=
  ⟨by decide, by decide, by decide⟩

/-- C4 amended: every failure of an issued search request sets the one fixed
search failure message, every failure of a save sets the one fixed save
failure message, the two messages differ, and neither handler retries: a
search invocation issues at most one request and a save invocation exactly
one. -/
theorem failure_collapses_to_fixed_message (s : AppState) :
    ((step s (.search SearchOutcome.failure)).requests.length = 1 →
      (stepState s (.search SearchOutcome.failure)).error = searchFailureMessage) ∧
    (stepState s (.save SaveOutcome.failure)).error = saveFailureMessage ∧
    (∀ o, (step s (.search o)).requests.length ≤ 1) ∧
    (∀ o, (step s (.save o)).requests.length = 1) ∧
    searchFailureMessage ≠ saveFailureMessage := by
  refine ⟨?_, rfl, ?_, ?_, by decide⟩
  · intro _
    simp only [stepState, step, handleSearch]
    split
    · simp_all [stepState, step, handleSearch]
    · rfl
  · intro o
    cases o <;> simp only [step, handleSearch] <;> split <;> simp
  · intro o
    cases o <;> rfl

/-- C4 amended witness: the theorem applied to a state with a nonblank
query. -/
theorem failure_collapses_witness :
    (stepState (stepState (initState none) (.editQuery "q"))
        (.search SearchOutcome.failure)).error = searchFailureMessage ∧
    (stepState (stepState (initState none) (.editQuery "q"))
        (.save SaveOutcome.failure)).error = saveFailureMessage :=
  ⟨(failure_collapses_to_fixed_message _).1 (by decide),
   (failure_collapses_to_fixed_message _).2.1⟩

/-- C5: a failed search leaves every state field other than error and loading
exactly as it was; in particular the article list and the llm reasoning are
unchanged. -/
theorem search_failure_preserves_state (s : AppState) :
    (stepState s (.search SearchOutcome.failure)).articles = s.articles ∧
    (stepState s (.search SearchOutcome.failure)).llmReasoning = s.llmReasoning ∧
    (stepState s (.search SearchOutcome.failure)).query = s.query ∧
    (stepState s (.search SearchOutcome.failure)).maxSearchResults = s.maxSearchResults ∧
    (stepState s (.search SearchOutcome.failure)).displayResults = s.displayResults ∧
    (stepState s (.search SearchOutcome.failure)).saving = s.saving ∧
    (stepState s (.search SearchOutcome.failure)).expandedCard = s.expandedCard ∧
    (stepState s (.search SearchOutcome.failure)).showProfileEditor = s.showProfileEditor ∧
    (stepState s (.search SearchOutcome.failure)).profile = s.profile ∧
    (stepState s (.search SearchOutcome.failure)).showLog = s.showLog := by
  simp only [stepState, step, handleSearch]
  split <;> simp

/-- C6: for every query that is not all whitespace, the search handler issues
exactly one GET request, to /search/ followed by the URI-encoded query, with
exactly the three parameters max_results, display_results and profile, and on
success it stores the response articles and llm_reasoning verbatim. -/
theorem search_request_shape_and_success (s : AppState) (resp : SearchResponse)
    (h : ¬ ∀ c ∈ s.query.data, isJsWhitespace c = true) :
    (∀ o, (step s (.search o)).requests = [searchRequest s]) ∧
    searchRequest s = ⟨"GET",
      "http://localhost:8000/search/" ++ encodeURIComponent s.query,
      [("max_results", toString s.maxSearchResults),
       ("display_results", toString s.displayResults),
       ("profile", s.profile)],
      none⟩ ∧
    (stepState s (.search (SearchOutcome.success resp))).articles = resp.articles ∧
    (stepState s (.search (SearchOutcome.success resp))).llmReasoning = resp.llm_reasoning := by
  have ht : jsTrim s.query.data ≠ [] := fun hnil => h ((jsTrim_eq_nil_iff _).mp hnil)
  have hempty : (jsTrim s.query.data).isEmpty = false := by
    cases hjt : jsTrim s.query.data
    · exact absurd hjt ht
    · rfl
  refine ⟨?_, rfl, ?_, ?_⟩
  · intro o
    cases o <;> simp [step, handleSearch, hempty]
  · simp [stepState, step, handleSearch, hempty]
  · simp [stepState, step, handleSearch, hempty]

/-- C6 witness: the theorem applied to a state whose query is hi and an empty
response with reasoning llm. -/
theorem search_request_shape_witness :
    (step (stepState (initState none) (.editQuery "hi"))
        (.search (SearchOutcome.success ⟨[], "llm"⟩))).requests
      = [searchRequest (stepState (initState none) (.editQuery "hi"))] ∧
    (stepState (stepState (initState none) (.editQuery "hi"))
        (.search (SearchOutcome.success ⟨[], "llm"⟩))).llmReasoning = "llm" :=
  ⟨(search_request_shape_and_success (stepState (initState none) (.editQuery "hi"))
      ⟨[], "llm"⟩ (by decide)).1 _,
   (search_request_shape_and_success (stepState (initState none) (.editQuery "hi"))
      ⟨[], "llm"⟩ (by decide)).2.2.2⟩

/-- C7: the save handler issues exactly one POST to /save whose body is the
currently displayed article list unmodified, and a success response, whatever
its content, changes nothing in the client state except clearing the saving
flag. -/
theorem save_posts_articles_verbatim (s : AppState) (r1 r2 : String) :
    (∀ o, (step s (.save o)).requests = [saveRequest s]) ∧
    saveRequest s = ⟨"POST", "http://localhost:8000/save", [], some s.articles⟩ ∧
    stepState s (.save (SaveOutcome.success r1)) = { s with saving := false } ∧
    stepState s (.save (SaveOutcome.success r1))
      = stepState s (.save (SaveOutcome.success r2)) := by
  refine ⟨?_, rfl, rfl, rfl⟩
  intro o
  cases o <;> rfl

/-- C8: dismissing card i replaces the article list by exactly the same list
with the i-th element removed, the prefix before i and the suffix after i kept
with all fields untouched, and changes no other state field. -/
theorem dismiss_removes_exactly_ith (s : AppState) (i : Nat) :
    (stepState s (.dismiss i)).articles = s.articles.eraseIdx i ∧
    s.articles.eraseIdx i = s.articles.take i ++ s.articles.drop (i + 1) ∧
    (stepState s (.dismiss i)).query = s.query ∧
    (stepState s (.dismiss i)).maxSearchResults = s.maxSearchResults ∧
    (stepState s (.dismiss i)).displayResults = s.displayResults ∧
    (stepState s (.dismiss i)).loading = s.loading ∧
    (stepState s (.dismiss i)).saving = s.saving ∧
    (stepState s (.dismiss i)).error = s.error ∧
    (stepState s (.dismiss i)).expandedCard = s.expandedCard ∧
    (stepState s (.dismiss i)).showProfileEditor = s.showProfileEditor ∧
    (stepState s (.dismiss i)).profile = s.profile ∧
    (stepState s (.dismiss i)).showLog = s.showLog ∧
    (stepState s (.dismiss i)).llmReasoning = s.llmReasoning :=
  ⟨jsFilterIdx_ne_eq_eraseIdx s.articles i,
   List.eraseIdx_eq_take_drop_succ s.articles i,
   rfl, rfl, rfl, rfl, rfl, rfl, rfl, rfl, rfl, rfl, rfl⟩

/-- C9: the profile string is a parameter of every search request even when
empty; the only storage write any action performs is the current profile text
under the key userProfile; and startup reads only the key userProfile. -/
theorem profile_param_and_storage (s : AppState) (a : Action)
    (f g : String → Option String) (hfg : f "userProfile" = g "userProfile") :
    (∀ o, ∀ r ∈ (step s (.search o)).requests, ("profile", s.profile) ∈ r.params) ∧
    (∀ w ∈ (step s a).writes, w = ("userProfile", s.profile)) ∧
    initStateFromStorage f = initStateFromStorage g := by
  refine ⟨?_, ?_, ?_⟩
  · intro o r hr
    cases o <;>
      (simp only [step, handleSearch] at hr
       split at hr
       · simp at hr
       · simp at hr
         subst hr
         simp [searchRequest])
  · intro w hw
    cases a with
    | search o =>
      cases o <;> simp only [step, handleSearch] at hw <;> split at hw <;> simp at hw
    | save o => cases o <;> simp [step, handleSave] at hw
    | saveProfile => simpa [step] using hw
    | editQuery v => simp [step] at hw
    | editMaxResults v => simp [step] at hw
    | editDisplayResults v => simp [step] at hw
    | dismiss i => simp [step] at hw
    | clickCard i => simp [step] at hw
    | toggleProfileEditor => simp [step] at hw
    | editProfile v => simp [step] at hw
    | toggleLog => simp [step] at hw
  · unfold initStateFromStorage
    rw [hfg]

/-- C9 witness: the write of a profile save and two storages agreeing on the
userProfile key. -/
theorem profile_param_and_storage_witness :
    (∀ w ∈ (step (initState none) Action.saveProfile).writes,
      w = ("userProfile", (initState none).profile)) ∧
    initStateFromStorage (fun _ => none)
      = initStateFromStorage (fun k => if k = "other" then some "x" else none) :=
  ⟨(profile_param_and_storage (initState none) Action.saveProfile
      (fun _ => none) (fun _ => none) rfl).2.1,
   (profile_param_and_storage (initState none) Action.saveProfile
      (fun _ => none) (fun k => if k = "other" then some "x" else none) (by decide)).2.2⟩

/-- C10: truncateText returns the first lines*10 space-split components joined
by single spaces with dots appended exactly when further components exist, and
any text with at most lines*10 components is returned unchanged. -/
theorem truncateText_spec (text : String) (lines : Nat) :
    truncateText text lines
      = String.mk (jsJoinSpace ((jsSplitSpace text.data).take (lines * 10)) ++
          (if (jsSplitSpace text.data).length > lines * 10 then ['.', '.', '.'] else [])) ∧
    ((jsSplitSpace text.data).length ≤ lines * 10 → truncateText text lines = text) := by
  refine ⟨rfl, ?_⟩
  intro h
  simp only [truncateText]
  rw [List.take_of_length_le h, jsJoinSpace_jsSplitSpace, if_neg (by omega),
    List.append_nil]

/-- C10 witness: a two-word text within the limit is returned unchanged. -/
theorem truncateText_spec_witness : truncateText "hello world" 1 = "hello world" :=
  (truncateText_spec "hello world" 1).2 (by decide)

end Podcastr
